import Mathlib

/-!
Verification of the Purview API demo notebook (`src/PurviewAPIDemo.ipynb`).

The notebook builds metadata entities (`AtlasEntity`, `AtlasProcess`) and
drives them through a remote catalog service: bulk upload (with temporary
negative GUIDs replaced by server-assigned permanent GUIDs), fetch by GUID or
by (qualifiedName, typeName), update of lineage inputs/outputs, and delete.
The entity builders and the driver sequence are embedded from the notebook
source; the remote catalog's behaviour is modelled from the specification as
a stub service (`Catalog`), since the service itself is outside the repo.
-/

/-- An Atlas entity as built in the notebook: `AtlasEntity(name, typeName,
qualified_name, guid)` with a client-chosen temporary negative `guid`. -/
structure AtlasEntity where
  name : String
  typeName : String
  qualified_name : String
  guid : Int
deriving Repr, DecidableEq

/-- A reference to another entity inside a process's `inputs`/`outputs`:
either a dict `\x7b'guid': g\x7d` holding a permanent GUID (as in the notebook's
`inputs = [\x7b'guid': input01_guid\x7d]`), or an `AtlasEntity` object placed
directly in the list (as in `existing_inputs + [input02]`). -/
inductive EntityRef where
  | byGuid (g : Nat)
  | byEntity (e : AtlasEntity)
deriving Repr, DecidableEq

/-- An Atlas process as built in the notebook: an entity plus optional
`inputs`/`outputs`; `none` is the absence marker (Python `None`). -/
structure AtlasProcess where
  name : String
  typeName : String
  qualified_name : String
  guid : Int
  inputs : Option (List EntityRef)
  outputs : Option (List EntityRef)
deriving Repr, DecidableEq

/-- One element of an upload batch: a plain entity or a process. -/
inductive UploadItem where
  | entity (e : AtlasEntity)
  | process (p : AtlasProcess)
deriving Repr, DecidableEq

def UploadItem.name : UploadItem → String
  | .entity e => e.name
  | .process p => p.name

def UploadItem.typeName : UploadItem → String
  | .entity e => e.typeName
  | .process p => p.typeName

def UploadItem.qualifiedName : UploadItem → String
  | .entity e => e.qualified_name
  | .process p => p.qualified_name

/-- The client-chosen temporary GUID carried by the batch item. -/
def UploadItem.tempGuid : UploadItem → Int
  | .entity e => e.guid
  | .process p => p.guid

/-- `inputs` payload of the item; a plain entity carries none. -/
def UploadItem.inputs : UploadItem → Option (List EntityRef)
  | .entity _ => none
  | .process p => p.inputs

/-- `outputs` payload of the item; a plain entity carries none. -/
def UploadItem.outputs : UploadItem → Option (List EntityRef)
  | .entity _ => none
  | .process p => p.outputs

/-- Modelled from the spec: a durable catalog record held by the remote
service. The server stores the permanent positive GUID, the attribute set,
and (for processes) the input/output references resolved to permanent
GUIDs. -/
structure StoredEntity where
  guid : Nat
  name : String
  typeName : String
  qualifiedName : String
  inputs : List Nat
  outputs : List Nat
deriving Repr, DecidableEq

/-- Modelled from the spec: the remote catalog's state — the durable records
plus the next fresh permanent GUID the server will assign. -/
structure Catalog where
  entities : List StoredEntity
  nextGuid : Nat
deriving Repr, DecidableEq

/-- Well-formedness of a catalog state: permanent GUIDs are positive and the
fresh-GUID counter is positive (the server only ever hands out positive
identifiers). -/
def Catalog.WF (c : Catalog) : Prop :=
  0 < c.nextGuid ∧ ∀ s ∈ c.entities, 0 < s.guid

instance (c : Catalog) : Decidable c.WF := by
  unfold Catalog.WF; infer_instance

/-- Lookup of a durable record by its (typeName, qualifiedName) key. -/
def findByTypeQName (c : Catalog) (tn qn : String) : Option StoredEntity :=
  c.entities.find? (fun s => s.typeName == tn && s.qualifiedName == qn)

/-- Modelled from the spec: first pass of the bulk upsert — the server walks
the batch and assigns each item a permanent GUID: the GUID of the existing
record with the same (typeName, qualifiedName) if there is one, otherwise a
fresh one. Returns the items paired with assigned GUIDs and the advanced
counter. -/
def assignGuids (c : Catalog) : List UploadItem → Nat → List (UploadItem × Nat) × Nat
  | [], next => ([], next)
  | it :: rest, next =>
    let (g, next') :=
      match findByTypeQName c it.typeName it.qualifiedName with
      | some s => (s.guid, next)
      | none => (next, next + 1)
    let (assigned, nextFin) := assignGuids c rest next'
    ((it, g) :: assigned, nextFin)

/-- Modelled from the spec: resolution of one input/output reference to a
permanent GUID. A `\x7b'guid': g\x7d` dict already holds the permanent GUID; an
entity object is resolved through the batch's GUID assignments (a temporary
GUID used in the same batch), else through the existing records; an
unresolvable reference is a referential-integrity error surfaced by the
service. -/
def resolveRef (c : Catalog) (assigned : List (UploadItem × Nat)) :
    EntityRef → Except String Nat
  | .byGuid g => .ok g
  | .byEntity e =>
    match assigned.find?
        (fun p => p.1.typeName == e.typeName && p.1.qualifiedName == e.qualified_name) with
    | some p => .ok p.2
    | none =>
      match findByTypeQName c e.typeName e.qualified_name with
      | some s => .ok s.guid
      | none => .error "referential integrity: unresolved entity reference"

/-- Modelled from the spec: upsert of one record. If a record with the same
(typeName, qualifiedName) exists it is updated in place — `none` for
inputs/outputs leaves the stored field unmodified, an explicit list replaces
it entirely; otherwise a new record with the assigned GUID is created. -/
def upsertRecord (c : Catalog) (it : UploadItem) (g : Nat)
    (ins outs : Option (List Nat)) : Catalog :=
  match findByTypeQName c it.typeName it.qualifiedName with
  | some _ =>
    { c with entities := c.entities.map (fun s =>
        if s.typeName == it.typeName && s.qualifiedName == it.qualifiedName then
          { s with name := it.name,
                   inputs := ins.getD s.inputs,
                   outputs := outs.getD s.outputs }
        else s) }
  | none =>
    { c with entities := c.entities ++
        [{ guid := g, name := it.name, typeName := it.typeName,
           qualifiedName := it.qualifiedName,
           inputs := ins.getD [], outputs := outs.getD [] }] }

/-- Resolution of a list of references, failing on the first unresolvable
one. -/
def resolveRefs (c : Catalog) (assigned : List (UploadItem × Nat)) :
    List EntityRef → Except String (List Nat)
  | [] => .ok []
  | r :: rs =>
    match resolveRef c assigned r with
    | .ok g =>
      match resolveRefs c assigned rs with
      | .ok gs => .ok (g :: gs)
      | .error e => .error e
    | .error e => .error e

/-- Resolution of an optional reference list; the absence marker stays
absent. -/
def resolveOptRefs (c : Catalog) (assigned : List (UploadItem × Nat)) :
    Option (List EntityRef) → Except String (Option (List Nat))
  | none => .ok none
  | some rs =>
    match resolveRefs c assigned rs with
    | .ok gs => .ok (some gs)
    | .error e => .error e

/-- Modelled from the spec: second pass of the bulk upsert — resolve the
item's input/output references (if any) and apply the upsert. -/
def applyItem (c0 : Catalog) (assigned : List (UploadItem × Nat))
    (c : Catalog) (itg : UploadItem × Nat) : Except String Catalog :=
  match resolveOptRefs c0 assigned itg.1.inputs with
  | .error e => .error e
  | .ok ins =>
    match resolveOptRefs c0 assigned itg.1.outputs with
    | .error e => .error e
    | .ok outs => .ok (upsertRecord c itg.1 itg.2 ins outs)

/-- Application of the whole assigned batch, left to right, failing on the
first error. -/
def applyAll (c0 : Catalog) (assigned : List (UploadItem × Nat)) (c : Catalog) :
    List (UploadItem × Nat) → Except String Catalog
  | [] => .ok c
  | itg :: rest =>
    match applyItem c0 assigned c itg with
    | .ok c' => applyAll c0 assigned c' rest
    | .error e => .error e

/-- The response of the bulk upsert endpoint: `guidAssignments` maps the
string form of each temporary GUID in the payload to its assigned permanent
GUID (also a string). -/
structure UploadResponse where
  guidAssignments : List (String × String)
deriving Repr, DecidableEq

/-- Modelled from the spec: `upload_entities` — serialize the batch, let the
server assign permanent GUIDs to the temporary negative ones, resolve the
references, and create or update the durable records; returns the new
catalog state and the response carrying `guidAssignments`. -/
def upload_entities (c : Catalog) (batch : List UploadItem) :
    Except String (Catalog × UploadResponse) :=
  let (assigned, next') := assignGuids c batch c.nextGuid
  match applyAll c assigned { c with nextGuid := next' } assigned with
  | .ok c' => .ok (c', ⟨assigned.map (fun p => (toString p.1.tempGuid, toString p.2))⟩)
  | .error e => .error e

/-- The attribute set the service returns for one entity, including
`inputs`/`outputs` for process-type entities (the notebook reads
`process01["attributes"]["inputs"]`). -/
structure FetchedAttributes where
  name : String
  qualifiedName : String
  inputs : List EntityRef
  outputs : List EntityRef
deriving Repr, DecidableEq

/-- One entity as returned by a fetch: permanent GUID, typeName and the full
attribute set. -/
structure FetchedEntity where
  guid : Nat
  typeName : String
  attributes : FetchedAttributes
deriving Repr, DecidableEq

/-- The fetch response: a dictionary whose `entities` value is a list. -/
structure GetResponse where
  entities : List FetchedEntity
deriving Repr, DecidableEq

/-- Serialization of a stored record into the fetch wire form; the stored
input/output GUIDs come back as `\x7b'guid': g\x7d` references. -/
def fetchOf (s : StoredEntity) : FetchedEntity :=
  ⟨s.guid, s.typeName,
    ⟨s.name, s.qualifiedName, s.inputs.map .byGuid, s.outputs.map .byGuid⟩⟩

/-- The two addressing modes of `get_entity`: one permanent GUID, or a
qualifiedName list together with a typeName. -/
inductive GetQuery where
  | byGuid (g : Nat)
  | byQualifiedName (qualifiedNames : List String) (typeName : String)
deriving Repr, DecidableEq

/-- Modelled from the spec: `get_entity` — fetch one entity by permanent
GUID, or the batch of records matching one of the qualifiedNames together
with the typeName; a miss is an error surfaced by the service. -/
def get_entity (c : Catalog) : GetQuery → Except String GetResponse
  | .byGuid g =>
    match c.entities.find? (fun s => s.guid == g) with
    | some s => .ok ⟨[fetchOf s]⟩
    | none => .error "entity not found"
  | .byQualifiedName qns tn =>
    let ms := c.entities.filter (fun s => s.typeName == tn && qns.contains s.qualifiedName)
    if ms.isEmpty then .error "no entities found" else .ok ⟨ms.map fetchOf⟩

/-- Modelled from the spec: `delete_entity` — remove the record with the
given permanent GUID; deleting a non-existent GUID is an error surfaced by
the service. -/
def delete_entity (c : Catalog) (g : Nat) : Except String Catalog :=
  if c.entities.any (fun s => s.guid == g) then
    .ok { c with entities := c.entities.filter (fun s => s.guid != g) }
  else .error "guid not found"

/-- Parsing of a returned decimal GUID string back to a number, standing for
the driver passing the returned GUID strings back into subsequent calls. -/
def natOfDigits (s : String) : Nat :=
  s.toList.foldl (fun n c => n * 10 + (c.toNat - 48)) 0

/-- Lookup in the `guidAssignments` mapping by key, as the notebook's
`upload_results['guidAssignments']['-1001']`. -/
def UploadResponse.guidAssignment (r : UploadResponse) (key : String) : Option String :=
  (r.guidAssignments.find? (fun p => p.1 == key)).map Prod.snd

/-- Run of the notebook's cleanup loop: `for entity in assets + processes:
client.delete_entity(guid=entity['guid'])`, with no try/except around the
calls — an error aborts the loop, leaving the state reached so far. -/
def deleteLoopRun (c : Catalog) : List Nat → Catalog × Except String Unit
  | [] => (c, .ok ())
  | g :: gs =>
    match delete_entity c g with
    | .ok c' => deleteLoopRun c' gs
    | .error e => (c, .error e)

/-! ## The notebook's concrete entities and driver sequence -/

/-- The empty catalog the demo starts against; the server's first permanent
GUID is 1. -/
def emptyCat : Catalog := ⟨[], 1⟩

def firstAsset : AtlasEntity :=
  { name := "MyFirstCustomAsset", typeName := "DataSet",
    qualified_name := "demo://MyFirstCustomAsset", guid := -1000 }

def input01 : AtlasEntity :=
  { name := "Input01", typeName := "DataSet",
    qualified_name := "demo://input01", guid := -1001 }

def output01 : AtlasEntity :=
  { name := "Output01", typeName := "DataSet",
    qualified_name := "demo://output01", guid := -1002 }

def input02 : AtlasEntity :=
  { name := "Input02", typeName := "DataSet",
    qualified_name := "demo://input02", guid := -1004 }

/-- Cell 3 of the notebook: upload `firstAsset` alone. -/
def afterFirstUpload : Except String (Catalog × UploadResponse) :=
  upload_entities emptyCat [.entity firstAsset]

/-- Cell 4: upload `[input01, output01]` and extract the two assigned
permanent GUIDs from the response. -/
def afterLineageAssets : Except String (Catalog × Nat × Nat) := do
  let (c1, _) ← afterFirstUpload
  let (c2, r2) ← upload_entities c1 [.entity input01, .entity output01]
  let input01_guid := natOfDigits ((r2.guidAssignment "-1001").getD "")
  let output01_guid := natOfDigits ((r2.guidAssignment "-1002").getD "")
  pure (c2, input01_guid, output01_guid)

/-- Cell 5: build `process01` referencing the two assigned GUIDs, upload it,
and extract its permanent GUID. -/
def afterProcessUpload : Except String (Catalog × Nat) := do
  let (c2, ig, og) ← afterLineageAssets
  let process01 : AtlasProcess :=
    { name := "Process01", typeName := "Process",
      qualified_name := "demo://process01",
      inputs := some [.byGuid ig], outputs := some [.byGuid og], guid := -1003 }
  let (c3, r3) ← upload_entities c2 [.process process01]
  let process01_guid := natOfDigits ((r3.guidAssignment "-1003").getD "")
  pure (c3, process01_guid)

/-- Cells 6 and 7: fetch `process01` by GUID, read
`attributes.inputs`, set the update's inputs to the concatenation with
`input02`, and upload `[process01_update, input02]`. `process01_update` is
built with `inputs = None, outputs = None` and then its `inputs` field is
assigned, so it reaches the upload with explicit inputs and absent
outputs. -/
def afterUpdateUpload : Except String Catalog := do
  let (c3, process01_guid) ← afterProcessUpload
  let resp ← get_entity c3 (.byGuid process01_guid)
  let fetched ← match resp.entities with
    | [] => .error "empty entities"
    | fe :: _ => pure fe
  let existing_inputs := fetched.attributes.inputs
  let process01_update : AtlasProcess :=
    { name := "Process01", typeName := "Process",
      qualified_name := "demo://process01",
      inputs := some (existing_inputs ++ [.byEntity input02]),
      outputs := none, guid := -1005 }
  let (c4, _) ← upload_entities c3 [.process process01_update, .entity input02]
  pure c4

/-- Cell 8: query the four assets and the process by qualifiedName, then
delete each returned entity by GUID in a loop. -/
def afterCleanup : Except String Catalog := do
  let c4 ← afterUpdateUpload
  let assets ← get_entity c4 (.byQualifiedName
    ["demo://MyFirstCustomAsset", "demo://input01", "demo://input02",
     "demo://output01"] "DataSet")
  let processes ← get_entity c4 (.byQualifiedName ["demo://process01"] "Process")
  let guids := (assets.entities ++ processes.entities).map (fun fe => fe.guid)
  let (c5, res) := deleteLoopRun c4 guids
  match res with
  | .ok _ => pure c5
  | .error e => .error e


/-! ## Helper lemmas -/

/-- `find?` commutes with mapping a function that preserves the predicate. -/
theorem find?_map_preserve {α : Type} {l : List α} {q : α → Bool} {f : α → α}
    (hf : ∀ s, q (f s) = q s) :
    (l.map f).find? q = (l.find? q).map f := by
  induction l with
  | nil => rfl
  | cons a t ih =>
    simp only [List.map_cons]
    cases hq : q a
    · rw [List.find?_cons_of_neg, List.find?_cons_of_neg]
      · exact ih
      · simp [hq]
      · simp [hf a, hq]
    · rw [List.find?_cons_of_pos, List.find?_cons_of_pos] <;> simp [hf a, hq]

/-! ## C1 -/

/-- C1: uploading a single entity with a negative temporary GUID `g` into a
well-formed catalog succeeds, and the response's `guidAssignments` contains
the key `toString g` mapped to the string form of a positive permanent
GUID. -/
theorem upload_single_neg_guid_assignment (c : Catalog) (e : AtlasEntity)
    (hwf : c.WF) (hneg : e.guid < 0) :
    ∃ p : Nat, 0 < p ∧
      (upload_entities c [UploadItem.entity e]).map
        (fun pr => pr.2.guidAssignment (toString e.guid)) = .ok (some (toString p)) := by
  cases hfind : findByTypeQName c e.typeName e.qualified_name with
  | none =>
    refine ⟨c.nextGuid, hwf.1, ?_⟩
    simp [upload_entities, assignGuids, UploadItem.typeName, UploadItem.qualifiedName,
      hfind, applyAll, applyItem, resolveOptRefs, UploadItem.inputs, UploadItem.outputs,
      UploadItem.tempGuid, Except.map, UploadResponse.guidAssignment]
  | some s =>
    have hmem : s ∈ c.entities := List.mem_of_find?_eq_some hfind
    refine ⟨s.guid, hwf.2 s hmem, ?_⟩
    simp [upload_entities, assignGuids, UploadItem.typeName, UploadItem.qualifiedName,
      hfind, applyAll, applyItem, resolveOptRefs, UploadItem.inputs, UploadItem.outputs,
      UploadItem.tempGuid, Except.map, UploadResponse.guidAssignment]

/-- C1 witness: the notebook's `firstAsset` (guid −1000, whose key string is
"-1000") uploaded alone into the empty catalog. -/
theorem upload_single_neg_guid_assignment_witness :
    emptyCat.WF ∧ firstAsset.guid < 0 ∧ toString firstAsset.guid = "-1000" ∧
    ∃ p : Nat, 0 < p ∧
      (upload_entities emptyCat [UploadItem.entity firstAsset]).map
        (fun pr => pr.2.guidAssignment (toString firstAsset.guid)) = .ok (some (toString p)) :=
  ⟨by decide, by decide, by decide,
    upload_single_neg_guid_assignment emptyCat firstAsset (by decide) (by decide)⟩

/-! ## C2 -/

/-- The server's first pass pairs exactly the batch items, in order, with
assigned GUIDs. -/
theorem assignGuids_map_fst (c : Catalog) (batch : List UploadItem) (n : Nat) :
    (assignGuids c batch n).1.map Prod.fst = batch := by
  induction batch generalizing n with
  | nil => rfl
  | cons it rest ih =>
    simp only [assignGuids]
    cases findByTypeQName c it.typeName it.qualifiedName <;> simp [ih]

/-- C2: in any successful upload whose temporary GUIDs have pairwise
distinct string forms, the response's `guidAssignments` carries each
temporary GUID's string form as a key exactly once — each temporary GUID
resolves to exactly one assigned permanent GUID. -/
theorem guid_assignment_unique (c : Catalog) (batch : List UploadItem)
    (c' : Catalog) (r : UploadResponse)
    (hup : upload_entities c batch = .ok (c', r))
    (hkeys : (batch.map (fun it => toString it.tempGuid)).Nodup)
    (it : UploadItem) (hit : it ∈ batch) :
    (r.guidAssignments.map Prod.fst).count (toString it.tempGuid) = 1 := by
  rcases he : assignGuids c batch c.nextGuid with ⟨assigned, next'⟩
  unfold upload_entities at hup
  rw [he] at hup
  cases happ : applyAll c assigned { c with nextGuid := next' } assigned with
  | error e => simp [happ] at hup
  | ok c'' =>
    simp only [happ] at hup
    have hr : r.guidAssignments =
        assigned.map (fun p => (toString p.1.tempGuid, toString p.2)) := by
      cases hup; rfl
    have hfst : assigned.map Prod.fst = batch := by
      have := assignGuids_map_fst c batch c.nextGuid
      rw [he] at this; exact this
    have hkeyseq : r.guidAssignments.map Prod.fst =
        batch.map (fun it => toString it.tempGuid) := by
      rw [hr, List.map_map, ← hfst, List.map_map]
      rfl
    rw [hkeyseq]
    exact List.count_eq_one_of_mem hkeys
      (List.mem_map_of_mem (fun it => toString it.tempGuid) hit)

/-- The catalog state after the notebook's first upload (cell 3). -/
def wCat2 : Catalog :=
  ⟨[⟨1, "MyFirstCustomAsset", "DataSet", "demo://MyFirstCustomAsset", [], []⟩], 2⟩

/-- The catalog state after uploading `[input01, output01]` into `wCat2`. -/
def wCat2' : Catalog :=
  ⟨[⟨1, "MyFirstCustomAsset", "DataSet", "demo://MyFirstCustomAsset", [], []⟩,
    ⟨2, "Input01", "DataSet", "demo://input01", [], []⟩,
    ⟨3, "Output01", "DataSet", "demo://output01", [], []⟩], 4⟩

/-- The response of that upload. -/
def wResp2 : UploadResponse := ⟨[("-1001", "2"), ("-1002", "3")]⟩

/-- C2 witness: the notebook's `[input01, output01]` batch — the key
"-1001" occurs exactly once among the response's `guidAssignments` keys. -/
theorem guid_assignment_unique_witness :
    (wResp2.guidAssignments.map Prod.fst).count
      (toString (UploadItem.entity input01).tempGuid) = 1 :=
  guid_assignment_unique wCat2 [.entity input01, .entity output01] wCat2' wResp2
    rfl (by decide) (UploadItem.entity input01) (by decide)

/-! ## C3 -/

/-- Upserting onto an existing (typeName, qualifiedName) key updates that
record in place: the lookup afterwards returns the old record with the name
overwritten and inputs/outputs replaced where an explicit list was given,
kept where the absence marker was given. -/
theorem find?_upsert_existing (c : Catalog) (it : UploadItem) (g : Nat)
    (ins outs : Option (List Nat)) (s : StoredEntity) (nx : Nat)
    (hs : findByTypeQName c it.typeName it.qualifiedName = some s) :
    findByTypeQName (upsertRecord { c with nextGuid := nx } it g ins outs)
        it.typeName it.qualifiedName =
      some { s with name := it.name, inputs := ins.getD s.inputs,
                    outputs := outs.getD s.outputs } := by
  unfold findByTypeQName at hs
  have hq := List.find?_some hs
  simp only [] at hq
  unfold upsertRecord findByTypeQName
  simp only []
  rw [show ({ c with nextGuid := nx } : Catalog).entities = c.entities from rfl, hs]
  simp only []
  rw [find?_map_preserve (by
    intro t
    by_cases ht : (t.typeName == it.typeName && t.qualifiedName == it.qualifiedName) = true <;>
      simp [ht])]
  rw [hs]
  simp only [Bool.and_eq_true, beq_iff_eq] at hq
  simp [hq.1, hq.2]

/-- Inversion of a successful single-process upload onto an existing
(typeName, qualifiedName) key: both reference lists resolved, and the new
state is the corresponding upsert at the existing record's GUID. -/
theorem upload_process_singleton_ok (c : Catalog) (p : AtlasProcess) (s : StoredEntity)
    (hs : findByTypeQName c p.typeName p.qualified_name = some s)
    (c' : Catalog) (r : UploadResponse)
    (hup : upload_entities c [UploadItem.process p] = .ok (c', r)) :
    ∃ ins outs,
      resolveOptRefs c [(UploadItem.process p, s.guid)] p.inputs = .ok ins ∧
      resolveOptRefs c [(UploadItem.process p, s.guid)] p.outputs = .ok outs ∧
      c' = upsertRecord { c with nextGuid := c.nextGuid } (UploadItem.process p) s.guid ins outs := by
  unfold upload_entities at hup
  simp only [assignGuids, UploadItem.typeName, UploadItem.qualifiedName, hs] at hup
  simp only [applyAll, applyItem, UploadItem.inputs, UploadItem.outputs] at hup
  cases hins : resolveOptRefs c [(UploadItem.process p, s.guid)] p.inputs with
  | error e => rw [hins] at hup; simp at hup
  | ok ins =>
    rw [hins] at hup
    dsimp only at hup
    cases houts : resolveOptRefs c [(UploadItem.process p, s.guid)] p.outputs with
    | error e => rw [houts] at hup; simp at hup
    | ok outs =>
      rw [houts] at hup
      dsimp only at hup
      simp only [Except.ok.injEq, Prod.mk.injEq] at hup
      exact ⟨ins, outs, rfl, rfl, hup.1.symm⟩

/-- C3: a successful upload of a single process onto an existing record
leaves a field built with the absence marker unchanged: if the process was
built with `inputs = none` the record found under its (typeName,
qualifiedName) afterwards has exactly the inputs it had before, and likewise
for `outputs = none`. -/
theorem updateNone_preserves_field (c : Catalog) (p : AtlasProcess) (s : StoredEntity)
    (hs : findByTypeQName c p.typeName p.qualified_name = some s)
    (c' : Catalog) (r : UploadResponse)
    (hup : upload_entities c [UploadItem.process p] = .ok (c', r)) :
    (p.inputs = none →
      ∃ s', findByTypeQName c' p.typeName p.qualified_name = some s' ∧
        s'.inputs = s.inputs) ∧
    (p.outputs = none →
      ∃ s', findByTypeQName c' p.typeName p.qualified_name = some s' ∧
        s'.outputs = s.outputs) := by
  obtain ⟨ins, outs, hins, houts, hc'⟩ := upload_process_singleton_ok c p s hs c' r hup
  subst hc'
  constructor
  · intro hin
    rw [hin] at hins
    have hinsnone : ins = (none : Option (List Nat)) := by
      simpa [resolveOptRefs] using hins.symm
    subst hinsnone
    exact ⟨_, find?_upsert_existing c (UploadItem.process p) s.guid none outs s
      c.nextGuid hs, rfl⟩
  · intro hout
    rw [hout] at houts
    have houtsnone : outs = (none : Option (List Nat)) := by
      simpa [resolveOptRefs] using houts.symm
    subst houtsnone
    exact ⟨_, find?_upsert_existing c (UploadItem.process p) s.guid ins none s
      c.nextGuid hs, rfl⟩

/-- The catalog state after the notebook's process upload (cell 5). -/
def wCat3 : Catalog :=
  ⟨[⟨1, "MyFirstCustomAsset", "DataSet", "demo://MyFirstCustomAsset", [], []⟩,
    ⟨2, "Input01", "DataSet", "demo://input01", [], []⟩,
    ⟨3, "Output01", "DataSet", "demo://output01", [], []⟩,
    ⟨4, "Process01", "Process", "demo://process01", [2], [3]⟩], 5⟩

/-- The stored process record inside `wCat3`. -/
def wProc3 : StoredEntity := ⟨4, "Process01", "Process", "demo://process01", [2], [3]⟩

/-- The notebook's `process01_update` as first built (cell 6): `inputs =
None, outputs = None`, fresh temporary GUID −1005. -/
def process01_update0 : AtlasProcess :=
  { name := "Process01", typeName := "Process",
    qualified_name := "demo://process01",
    inputs := none, outputs := none, guid := -1005 }

/-- C3 witness: uploading `process01_update0` (both fields absent) into
`wCat3` leaves the stored process's inputs `[2]` and outputs `[3]`
unchanged. -/
theorem updateNone_preserves_field_witness :
    (∃ s', findByTypeQName wCat3 process01_update0.typeName
        process01_update0.qualified_name = some s' ∧ s'.inputs = wProc3.inputs) ∧
    (∃ s', findByTypeQName wCat3 process01_update0.typeName
        process01_update0.qualified_name = some s' ∧ s'.outputs = wProc3.outputs) :=
  ⟨(updateNone_preserves_field wCat3 process01_update0 wProc3 rfl
      wCat3 ⟨[("-1005", "4")]⟩ rfl).1 rfl,
   (updateNone_preserves_field wCat3 process01_update0 wProc3 rfl
      wCat3 ⟨[("-1005", "4")]⟩ rfl).2 rfl⟩

/-! ## C4 -/

/-- References that are already permanent-GUID dicts resolve to exactly
those GUIDs. -/
theorem resolveRefs_byGuid (c : Catalog) (a : List (UploadItem × Nat)) (gs : List Nat) :
    resolveRefs c a (gs.map EntityRef.byGuid) = .ok gs := by
  induction gs with
  | nil => rfl
  | cons g t ih => simp [resolveRefs, resolveRef, ih]

/-- C4: a successful upload of a single process built with an explicit
inputs sequence of GUID references onto an existing record replaces the
stored inputs with exactly that sequence — no merge with the previous
value. -/
theorem updateExplicit_replaces_inputs (c : Catalog) (p : AtlasProcess) (s : StoredEntity)
    (gs : List Nat)
    (hs : findByTypeQName c p.typeName p.qualified_name = some s)
    (hin : p.inputs = some (gs.map EntityRef.byGuid))
    (c' : Catalog) (r : UploadResponse)
    (hup : upload_entities c [UploadItem.process p] = .ok (c', r)) :
    ∃ s', findByTypeQName c' p.typeName p.qualified_name = some s' ∧
      s'.inputs = gs := by
  obtain ⟨ins, outs, hins, houts, hc'⟩ := upload_process_singleton_ok c p s hs c' r hup
  rw [hin] at hins
  have hins' : ins = some gs := by
    simp only [resolveOptRefs, resolveRefs_byGuid] at hins
    exact ((Except.ok.injEq _ _).mp hins).symm
  subst hc'
  subst hins'
  exact ⟨_, find?_upsert_existing c (UploadItem.process p) s.guid (some gs) outs s
    c.nextGuid hs, rfl⟩

/-- The notebook-shaped update process with an explicit inputs list `[2, 3]`
of permanent-GUID references and absent outputs. -/
def process01_explicit : AtlasProcess :=
  { name := "Process01", typeName := "Process",
    qualified_name := "demo://process01",
    inputs := some [.byGuid 2, .byGuid 3], outputs := none, guid := -1005 }

/-- The catalog after uploading `process01_explicit` into `wCat3`: the
stored inputs `[2]` have been replaced by `[2, 3]`. -/
def wCat4' : Catalog :=
  ⟨[⟨1, "MyFirstCustomAsset", "DataSet", "demo://MyFirstCustomAsset", [], []⟩,
    ⟨2, "Input01", "DataSet", "demo://input01", [], []⟩,
    ⟨3, "Output01", "DataSet", "demo://output01", [], []⟩,
    ⟨4, "Process01", "Process", "demo://process01", [2, 3], [3]⟩], 5⟩

/-- C4 witness: uploading `process01_explicit` into `wCat3` replaces the
stored inputs with exactly `[2, 3]`. -/
theorem updateExplicit_replaces_inputs_witness :
    ∃ s', findByTypeQName wCat4' process01_explicit.typeName
        process01_explicit.qualified_name = some s' ∧ s'.inputs = [2, 3] :=
  updateExplicit_replaces_inputs wCat3 process01_explicit wProc3 [2, 3] rfl rfl
    wCat4' ⟨[("-1005", "4")]⟩ rfl

/-! ## C5 -/

/-- C5: the notebook's client-side append emulation. Before the update
upload the stored process has inputs `[2]` (the GUID assigned to `input01`)
and outputs `[3]`; the driver fetches those inputs, concatenates a reference
to the new `input02`, and re-uploads. Afterwards the stored inputs are the
previous inputs followed by exactly one reference to the newly created
`input02` (assigned GUID 5), in that order, and the outputs are
unchanged. -/
theorem append_emulation_result :
    (afterProcessUpload.map (fun pr =>
        (findByTypeQName pr.1 "Process" "demo://process01").map
          (fun s => (s.inputs, s.outputs))) = .ok (some ([2], [3]))) ∧
    (afterUpdateUpload.map (fun c =>
        ((findByTypeQName c "Process" "demo://process01").map
            (fun s => (s.inputs, s.outputs)),
         (findByTypeQName c "DataSet" "demo://input02").map
            (fun s => s.guid)))
      = .ok (some ([2] ++ [5], [3]), some 5)) :=
  ⟨rfl, rfl⟩

/-! ## C6 -/

/-- Inversion of a single plain-entity upload: it always succeeds and the
new state is an upsert of that entity with absent inputs/outputs. -/
theorem upload_entity_singleton_ok (c : Catalog) (e : AtlasEntity)
    (c' : Catalog) (r : UploadResponse)
    (hup : upload_entities c [UploadItem.entity e] = .ok (c', r)) :
    ∃ g nx, c' = upsertRecord { c with nextGuid := nx } (UploadItem.entity e) g
      none none := by
  unfold upload_entities at hup
  cases hfind : findByTypeQName c e.typeName e.qualified_name <;>
  · simp only [assignGuids, UploadItem.typeName, UploadItem.qualifiedName, hfind,
      applyAll, applyItem, UploadItem.inputs, UploadItem.outputs, resolveOptRefs,
      Except.ok.injEq, Prod.mk.injEq] at hup
    exact ⟨_, _, hup.1.symm⟩

/-- After any upsert, some stored record carries the upserted item's
(typeName, qualifiedName) key. -/
theorem upsert_mem_match (c : Catalog) (it : UploadItem) (g : Nat)
    (ins outs : Option (List Nat)) :
    ∃ t ∈ (upsertRecord c it g ins outs).entities,
      (t.typeName == it.typeName && t.qualifiedName == it.qualifiedName) = true := by
  unfold upsertRecord
  cases hfind : findByTypeQName c it.typeName it.qualifiedName with
  | some s =>
    unfold findByTypeQName at hfind
    have hq := List.find?_some hfind
    simp only [] at hq
    have hmem : s ∈ c.entities := List.mem_of_find?_eq_some hfind
    refine ⟨_, List.mem_map_of_mem _ hmem, ?_⟩
    simp only [hq, if_true]
  | none =>
    refine ⟨_, List.mem_append_right _ (List.mem_singleton_self _), ?_⟩
    simp

/-- C6: after uploading an entity, fetching by its (qualifiedName, typeName)
pair succeeds and the returned batch contains an entity reporting the same
qualifiedName and typeName the entity was created with. -/
theorem roundtrip_qname (c : Catalog) (e : AtlasEntity)
    (c' : Catalog) (r : UploadResponse)
    (hup : upload_entities c [UploadItem.entity e] = .ok (c', r)) :
    (get_entity c' (.byQualifiedName [e.qualified_name] e.typeName)).map
      (fun resp => resp.entities.any (fun fe =>
        fe.typeName == e.typeName && fe.attributes.qualifiedName == e.qualified_name))
      = .ok true := by
  obtain ⟨g, nx, hc'⟩ := upload_entity_singleton_ok c e c' r hup
  subst hc'
  obtain ⟨t, htmem, htq⟩ :=
    upsert_mem_match { c with nextGuid := nx } (UploadItem.entity e) g none none
  simp only [UploadItem.typeName, UploadItem.qualifiedName, Bool.and_eq_true] at htq
  have htf : t ∈ (upsertRecord { c with nextGuid := nx } (UploadItem.entity e) g
      none none).entities.filter (fun s =>
        s.typeName == e.typeName && [e.qualified_name].contains s.qualifiedName) := by
    refine List.mem_filter.mpr ⟨htmem, ?_⟩
    simp only [List.contains_cons, List.contains_nil, Bool.or_false, Bool.and_eq_true]
    exact ⟨htq.1, htq.2⟩
  simp only [get_entity]
  have hne : ((upsertRecord { c with nextGuid := nx } (UploadItem.entity e) g
      none none).entities.filter (fun s =>
        s.typeName == e.typeName && [e.qualified_name].contains s.qualifiedName)).isEmpty
      = false := by
    cases hcase : (upsertRecord { c with nextGuid := nx } (UploadItem.entity e) g
        none none).entities.filter (fun s =>
          s.typeName == e.typeName && [e.qualified_name].contains s.qualifiedName) with
    | nil => rw [hcase] at htf; exact absurd htf (List.not_mem_nil t)
    | cons a l => rfl
  simp only [hne, Bool.false_eq_true, if_false, Except.map]
  congr 1
  refine List.any_eq_true.mpr ⟨fetchOf t, List.mem_map_of_mem _ htf, ?_⟩
  simp only [fetchOf, Bool.and_eq_true]
  exact ⟨htq.1, htq.2⟩

/-- C6 witness: `firstAsset` uploaded into the empty catalog, then fetched
by its qualifiedName and typeName. -/
theorem roundtrip_qname_witness :
    (get_entity wCat2
        (.byQualifiedName [firstAsset.qualified_name] firstAsset.typeName)).map
      (fun resp => resp.entities.any (fun fe =>
        fe.typeName == firstAsset.typeName &&
        fe.attributes.qualifiedName == firstAsset.qualified_name))
      = .ok true :=
  roundtrip_qname emptyCat firstAsset wCat2 ⟨[("-1000", "1")]⟩ rfl

/-! ## C7 -/

/-- C7: after a successful delete of the record with permanent GUID `g`, a
fetch by that GUID fails with the service's not-found error. -/
theorem delete_then_get_not_found (c c' : Catalog) (g : Nat)
    (hdel : delete_entity c g = .ok c') :
    get_entity c' (.byGuid g) = .error "entity not found" := by
  unfold delete_entity at hdel
  split at hdel
  · obtain rfl : ({ c with entities := c.entities.filter (fun s => s.guid != g) }
        : Catalog) = c' := (Except.ok.injEq _ _).mp hdel
    simp only [get_entity]
    have hnone : (c.entities.filter (fun s => s.guid != g)).find?
        (fun s => s.guid == g) = none := by
      rw [List.find?_eq_none]
      intro x hx
      have hx2 := (List.mem_filter.mp hx).2
      simp only [bne_iff_ne, ne_eq] at hx2
      simp [hx2]
    rw [hnone]
  · simp at hdel

/-- C7 witness: deleting the only record of `wCat2` (permanent GUID 1) and
fetching it back. -/
theorem delete_then_get_not_found_witness :
    get_entity (⟨[], 2⟩ : Catalog) (.byGuid 1) = .error "entity not found" :=
  delete_then_get_not_found wCat2 ⟨[], 2⟩ 1 rfl

/-! ## C8 -/

/-- C8: the two addressing modes of `get_entity` (captured by the `GetQuery`
type). A successful response is a dictionary whose `entities` value is a
list of full serializations of stored records — each element carries the
complete attribute set, including the inputs/outputs reference lists. In
GUID mode the list is exactly the one stored record with that GUID; in
qualifiedName mode it is the non-empty batch of records matching the
typeName and one of the qualifiedNames. -/
theorem get_entity_modes (c : Catalog) (q : GetQuery) (resp : GetResponse)
    (h : get_entity c q = .ok resp) :
    (∀ fe ∈ resp.entities, ∃ s ∈ c.entities, fe = fetchOf s ∧
        fe.attributes.inputs = s.inputs.map EntityRef.byGuid ∧
        fe.attributes.outputs = s.outputs.map EntityRef.byGuid) ∧
    (match q with
     | .byGuid g => ∃ s ∈ c.entities, s.guid = g ∧ resp.entities = [fetchOf s]
     | .byQualifiedName qns tn => resp.entities ≠ [] ∧
         ∀ fe ∈ resp.entities,
           (fe.typeName == tn && qns.contains fe.attributes.qualifiedName) = true) := by
  cases q with
  | byGuid g =>
    simp only [get_entity] at h
    cases hfind : c.entities.find? (fun s => s.guid == g) with
    | none => rw [hfind] at h; cases h
    | some s =>
      rw [hfind] at h
      obtain rfl : GetResponse.mk [fetchOf s] = resp := (Except.ok.injEq _ _).mp h
      have hmem := List.mem_of_find?_eq_some hfind
      have hg := List.find?_some hfind
      simp only [beq_iff_eq] at hg
      refine ⟨?_, s, hmem, hg, rfl⟩
      intro fe hfe
      simp only [List.mem_singleton] at hfe
      subst hfe
      exact ⟨s, hmem, rfl, rfl, rfl⟩
  | byQualifiedName qns tn =>
    simp only [get_entity] at h
    split at h
    · cases h
    · rename_i hne
      obtain rfl : GetResponse.mk ((c.entities.filter (fun s =>
          s.typeName == tn && qns.contains s.qualifiedName)).map fetchOf) = resp :=
        (Except.ok.injEq _ _).mp h
      refine ⟨?_, ?_, ?_⟩
      · intro fe hfe
        obtain ⟨s, hsf, rfl⟩ := List.mem_map.mp hfe
        exact ⟨s, (List.mem_filter.mp hsf).1, rfl, rfl, rfl⟩
      · intro hnil
        simp only [List.map_eq_nil_iff] at hnil
        rw [hnil] at hne
        exact hne rfl
      · intro fe hfe
        obtain ⟨s, hsf, rfl⟩ := List.mem_map.mp hfe
        exact (List.mem_filter.mp hsf).2

/-- C8 witness: fetching the stored process of `wCat3` by its permanent
GUID 4 returns exactly that record. -/
theorem get_entity_modes_witness :
    ∃ s ∈ wCat3.entities, s.guid = 4 ∧
      (GetResponse.mk [fetchOf wProc3]).entities = [fetchOf s] :=
  (get_entity_modes wCat3 (.byGuid 4) ⟨[fetchOf wProc3]⟩ rfl).2

/-! ## C9 -/

/-- C9: an error raised by `delete_entity` inside the cleanup loop
propagates uncaught and terminates the loop: if the deletions before `gbad`
succeed, reaching state `c1`, and deleting `gbad` errors, the whole loop run
ends in exactly that error with state `c1` — none of the deletions after
`gbad` are performed, so the remaining entities stay undeleted. -/
theorem delete_error_aborts_loop (c c1 : Catalog) (gs1 gs2 : List Nat)
    (gbad : Nat) (e : String)
    (h1 : deleteLoopRun c gs1 = (c1, .ok ()))
    (h2 : delete_entity c1 gbad = .error e) :
    deleteLoopRun c (gs1 ++ gbad :: gs2) = (c1, .error e) := by
  induction gs1 generalizing c with
  | nil =>
    simp only [deleteLoopRun, Prod.mk.injEq] at h1
    obtain ⟨rfl, -⟩ := h1
    simp only [List.nil_append, deleteLoopRun, h2]
  | cons g t ih =>
    simp only [deleteLoopRun] at h1
    cases hd : delete_entity c g with
    | error e' => rw [hd] at h1; simp at h1
    | ok c'' =>
      rw [hd] at h1
      simp only [List.cons_append, deleteLoopRun, hd]
      exact ih c'' h1

/-- A two-record catalog used to witness the cleanup-loop abort. -/
def wC9 : Catalog :=
  ⟨[⟨1, "MyFirstCustomAsset", "DataSet", "demo://MyFirstCustomAsset", [], []⟩,
    ⟨2, "Input01", "DataSet", "demo://input01", [], []⟩], 3⟩

/-- The state after the first (successful) deletion of `wC9`'s loop. -/
def wC9mid : Catalog := ⟨[⟨2, "Input01", "DataSet", "demo://input01", [], []⟩], 3⟩

/-- C9 witness: deleting GUIDs `[1, 99, 2]` over `wC9` — GUID 99 does not
exist, so the loop stops with the service's error and entity 2 is left
undeleted. -/
theorem delete_error_aborts_loop_witness :
    deleteLoopRun wC9 ([1] ++ 99 :: [2]) = (wC9mid, .error "guid not found") :=
  delete_error_aborts_loop wC9 wC9mid [1] [2] 99 "guid not found" rfl rfl

/-! ## C10 -/

/-- Upserting onto an existing key leaves lookups of a key absent from the
catalog still absent. -/
theorem find?_upsert_existing_other_none (c : Catalog) (it : UploadItem) (g : Nat)
    (ins outs : Option (List Nat)) (s : StoredEntity) (tn qn : String) (nx : Nat)
    (hit : findByTypeQName c it.typeName it.qualifiedName = some s)
    (hnone : findByTypeQName c tn qn = none) :
    findByTypeQName (upsertRecord { c with nextGuid := nx } it g ins outs) tn qn
      = none := by
  unfold findByTypeQName at hit hnone
  unfold upsertRecord findByTypeQName
  simp only []
  rw [show ({ c with nextGuid := nx } : Catalog).entities = c.entities from rfl, hit]
  simp only []
  rw [find?_map_preserve (by
    intro t
    by_cases ht : (t.typeName == it.typeName && t.qualifiedName == it.qualifiedName) = true <;>
      simp [ht])]
  rw [hnone]
  rfl

/-- Upserting onto an existing key keeps the number of stored records. -/
theorem upsert_existing_length (c : Catalog) (it : UploadItem) (g : Nat)
    (ins outs : Option (List Nat)) (s : StoredEntity) (nx : Nat)
    (hit : findByTypeQName c it.typeName it.qualifiedName = some s) :
    (upsertRecord { c with nextGuid := nx } it g ins outs).entities.length
      = c.entities.length := by
  unfold upsertRecord
  rw [show findByTypeQName { c with nextGuid := nx } it.typeName it.qualifiedName
      = some s from hit]
  simp [List.length_map]

/-- Upserting a fresh key appends exactly one record. -/
theorem upsert_new_length (c : Catalog) (it : UploadItem) (g : Nat)
    (ins outs : Option (List Nat))
    (hnone : findByTypeQName c it.typeName it.qualifiedName = none) :
    (upsertRecord c it g ins outs).entities.length = c.entities.length + 1 := by
  unfold upsertRecord
  rw [hnone]
  simp

/-- Upserting a fresh key does not disturb the record found under a
different, existing key. -/
theorem find?_upsert_new_preserves (c : Catalog) (it : UploadItem) (g : Nat)
    (ins outs : Option (List Nat)) (tn qn : String) (s' : StoredEntity)
    (hnone : findByTypeQName c it.typeName it.qualifiedName = none)
    (hfound : findByTypeQName c tn qn = some s') :
    findByTypeQName (upsertRecord c it g ins outs) tn qn = some s' := by
  unfold upsertRecord
  rw [hnone]
  unfold findByTypeQName at hfound ⊢
  simp only []
  rw [List.find?_append, hfound]
  rfl

/-- C10: an update upload addresses the existing remote record by
(typeName, qualifiedName) equality, not by GUID. Uploading a batch of a
process whose key already exists (under any fresh temporary GUID) together
with one genuinely new entity grows the catalog by exactly one record — the
new entity — while the record under the process's key keeps the permanent
GUID it was first assigned. -/
theorem update_addressed_by_qname (c : Catalog) (p : AtlasProcess) (e2 : AtlasEntity)
    (s : StoredEntity)
    (hs : findByTypeQName c p.typeName p.qualified_name = some s)
    (h2 : findByTypeQName c e2.typeName e2.qualified_name = none)
    (c' : Catalog) (r : UploadResponse)
    (hup : upload_entities c [UploadItem.process p, UploadItem.entity e2] = .ok (c', r)) :
    c'.entities.length = c.entities.length + 1 ∧
    ∃ s', findByTypeQName c' p.typeName p.qualified_name = some s' ∧
      s'.guid = s.guid := by
  unfold upload_entities at hup
  simp only [assignGuids, UploadItem.typeName, UploadItem.qualifiedName, hs, h2] at hup
  simp only [applyAll, applyItem, UploadItem.inputs, UploadItem.outputs] at hup
  cases hins : resolveOptRefs c
      [(UploadItem.process p, s.guid), (UploadItem.entity e2, c.nextGuid)] p.inputs with
  | error e => rw [hins] at hup; simp at hup
  | ok ins =>
    rw [hins] at hup
    dsimp only at hup
    cases houts : resolveOptRefs c
        [(UploadItem.process p, s.guid), (UploadItem.entity e2, c.nextGuid)] p.outputs with
    | error e => rw [houts] at hup; simp at hup
    | ok outs =>
      rw [houts] at hup
      dsimp only at hup
      simp only [resolveOptRefs] at hup
      simp only [Except.ok.injEq, Prod.mk.injEq] at hup
      obtain ⟨hc', -⟩ := hup
      subst hc'
      have hnone1 := find?_upsert_existing_other_none c (UploadItem.process p) s.guid
        ins outs s e2.typeName e2.qualified_name (c.nextGuid + 1) hs h2
      refine ⟨?_, ?_⟩
      · rw [upsert_new_length _ (UploadItem.entity e2) c.nextGuid none none hnone1,
          upsert_existing_length c (UploadItem.process p) s.guid ins outs s
            (c.nextGuid + 1) hs]
      · exact ⟨_, find?_upsert_new_preserves _ (UploadItem.entity e2) c.nextGuid none none
          p.typeName p.qualified_name _ hnone1
          (find?_upsert_existing c (UploadItem.process p) s.guid ins outs s
            (c.nextGuid + 1) hs), rfl⟩

/-- The notebook's `process01_update` as it reaches the upload (cell 7):
explicit inputs `existing_inputs + [input02]`, absent outputs, fresh
temporary GUID −1005 (different from the original −1003). -/
def process01_update1 : AtlasProcess :=
  { name := "Process01", typeName := "Process",
    qualified_name := "demo://process01",
    inputs := some [.byGuid 2, .byEntity input02], outputs := none, guid := -1005 }

/-- The catalog after uploading `[process01_update1, input02]` into
`wCat3`. -/
def wCat10' : Catalog :=
  ⟨[⟨1, "MyFirstCustomAsset", "DataSet", "demo://MyFirstCustomAsset", [], []⟩,
    ⟨2, "Input01", "DataSet", "demo://input01", [], []⟩,
    ⟨3, "Output01", "DataSet", "demo://output01", [], []⟩,
    ⟨4, "Process01", "Process", "demo://process01", [2, 5], [3]⟩,
    ⟨5, "Input02", "DataSet", "demo://input02", [], []⟩], 6⟩

/-- C10 witness: the notebook's update batch `[process01_update1, input02]`
uploaded into `wCat3` — one record added, and the process's record still has
permanent GUID 4 although the update carried temporary GUID −1005. -/
theorem update_addressed_by_qname_witness :
    wCat10'.entities.length = wCat3.entities.length + 1 ∧
    ∃ s', findByTypeQName wCat10' process01_update1.typeName
        process01_update1.qualified_name = some s' ∧ s'.guid = wProc3.guid :=
  update_addressed_by_qname wCat3 process01_update1 input02 wProc3 rfl rfl wCat10'
    ⟨[("-1005", "4"), ("-1004", "5")]⟩ rfl
